import Mathlib

/-!
Verification development for the pullpal PR-lifecycle tracker.

The in-memory tracker (src/pr-tracker.ts) is modelled as an association
list keyed by PR number, mirroring the insertion-order semantics of a JS
Map: `set` on an existing key replaces the value in place, `set` on a new
key appends, `delete` removes the entry, and enumeration follows the list
order.  Timestamps are epoch milliseconds as integers; JS `||`-defaulting
on numbers (`x || 0`) coincides with `Option.getD 0` on integers since a
stored `0` still yields `0`, and on strings it is modelled by `jsOrStr`
(which treats the empty string as falsy).  Fallible upstream fetches are
modelled with `Except Unit`; a sync run returns its final store together
with an `ok` flag (`false` means the JS function threw, after whatever
mutations had already been applied to the shared map).
-/

/-- Models the JS idiom `s || d` for an optional string field: `undefined`
and the empty string both fall back to the default. -/
def jsOrStr (s : Option String) (d : String) : String :=
  match s with
  | none => d
  | some x => if x = "" then d else x

/-- Models `[...new Set(xs)]`: deduplication keeping the first occurrence
of each element, in first-occurrence order. -/
def jsSetDedup (l : List String) : List String :=
  l.foldl (fun acc x => if x ∈ acc then acc else acc ++ [x]) []

/-- The `TrackedPR` record of src/pr-tracker.ts (the `PRData` fields plus
`reviewers` and the snapshotted `age` in hours). -/
structure TrackedPR where
  number : Nat
  title : String
  url : String
  author : String
  createdAt : Int
  owner : String
  repo : String
  isDraft : Bool
  lastReviewedAt : Option Int
  lastUpdated : Option Int
  reviewCount : Option Int
  reviewers : List String
  age : Int
deriving DecidableEq

/-- The `PRData` input record of src/pr-tracker.ts. -/
structure PRData where
  number : Nat
  title : String
  url : String
  author : String
  createdAt : Int
  owner : String
  repo : String
  isDraft : Bool
  lastReviewedAt : Option Int := none
  lastUpdated : Option Int := none
  reviewCount : Option Int := none
deriving DecidableEq

/-- A `Partial<TrackedPR>` update object: every field optional, absent
fields modelled as `none`. -/
structure PRUpdate where
  number : Option Nat := none
  title : Option String := none
  url : Option String := none
  author : Option String := none
  createdAt : Option Int := none
  owner : Option String := none
  repo : Option String := none
  isDraft : Option Bool := none
  lastReviewedAt : Option Int := none
  lastUpdated : Option Int := none
  reviewCount : Option Int := none
  reviewers : Option (List String) := none
  age : Option Int := none
deriving DecidableEq

/-- The `trackedPRs` map, as an insertion-ordered association list. -/
abbrev Store := List (Nat × TrackedPR)

/-- `Map.get`: the value stored under a key, if any. -/
def storeGet : Store → Nat → Option TrackedPR
  | [], _ => none
  | (k', v) :: rest, k => if k' = k then some v else storeGet rest k

/-- `Map.set`: replace in place if the key is present, append otherwise. -/
def storeSet (k : Nat) (v : TrackedPR) : Store → Store
  | [] => [(k, v)]
  | (k', v') :: rest => if k' = k then (k, v) :: rest else (k', v') :: storeSet k v rest

/-- `Map.delete`: remove the entry with the given key, if present. -/
def storeDelete (k : Nat) : Store → Store
  | [] => []
  | (k', v') :: rest => if k' = k then rest else (k', v') :: storeDelete k rest

/-- `trackPR` (src/pr-tracker.ts lines 33-46): upsert preserving the
accumulated `reviewers` and `reviewCount` of an existing entry; note that
`prData.reviewCount` is never read, and `lastReviewedAt`/`lastUpdated`
come verbatim from `prData`. -/
def trackPR (prData : PRData) (now : Int) (s : Store) : Store :=
  storeSet prData.number
    { number := prData.number,
      title := prData.title,
      url := prData.url,
      author := prData.author,
      createdAt := prData.createdAt,
      owner := prData.owner,
      repo := prData.repo,
      isDraft := prData.isDraft,
      lastReviewedAt := prData.lastReviewedAt,
      lastUpdated := prData.lastUpdated,
      reviewers := ((storeGet s prData.number).map TrackedPR.reviewers).getD [],
      age := Int.fdiv (now - prData.createdAt) (1000 * 60 * 60),
      reviewCount := some (((storeGet s prData.number).bind TrackedPR.reviewCount).getD 0) } s

/-- The object literal `{...pr, ...updates, reviewCount: ...}` built by
`updatePRStatus` (src/pr-tracker.ts lines 61-67): every supplied field
replaces the stored one, except `reviewCount`, which is a delta added to
the existing count. -/
def applyPRUpdate (pr : TrackedPR) (updates : PRUpdate) : TrackedPR :=
  { number := updates.number.getD pr.number,
        title := updates.title.getD pr.title,
        url := updates.url.getD pr.url,
        author := updates.author.getD pr.author,
        createdAt := updates.createdAt.getD pr.createdAt,
        owner := updates.owner.getD pr.owner,
        repo := updates.repo.getD pr.repo,
        isDraft := updates.isDraft.getD pr.isDraft,
        lastReviewedAt :=
          (match updates.lastReviewedAt with
           | some t => some t
           | none => pr.lastReviewedAt),
        lastUpdated :=
          (match updates.lastUpdated with
           | some t => some t
           | none => pr.lastUpdated),
        reviewCount :=
          (match updates.reviewCount with
           | some d => some (pr.reviewCount.getD 0 + d)
           | none => pr.reviewCount),
        reviewers := updates.reviewers.getD pr.reviewers,
        age := updates.age.getD pr.age }

/-- `updatePRStatus` (src/pr-tracker.ts lines 51-70): merge the partial
update into the existing record via `applyPRUpdate`.  The returned flag
is `true` when the PR was not found (the `console.warn` path, where the
store is left unchanged). -/
def updatePRStatus (prNumber : Nat) (updates : PRUpdate) (s : Store) : Store × Bool :=
  match storeGet s prNumber with
  | none => (s, true)
  | some pr => (storeSet prNumber (applyPRUpdate pr updates) s, false)

/-- `removePR` (src/pr-tracker.ts lines 75-78). -/
def removePR (prNumber : Nat) (s : Store) : Store :=
  storeDelete prNumber s

/-- `getTrackedPRs` (src/pr-tracker.ts lines 83-85): the values in
insertion order. -/
def getTrackedPRs (s : Store) : List TrackedPR :=
  s.map Prod.snd

/-- `getStalePRs` (src/pr-tracker.ts lines 90-101): PRs whose age exceeds
the threshold and which have no review within the threshold window. -/
def getStalePRs (hoursThreshold : Int) (now : Int) (s : Store) : List TrackedPR :=
  (getTrackedPRs s).filter (fun pr =>
    decide (now - pr.createdAt > hoursThreshold * (60 * 60 * 1000)) &&
      (match pr.lastReviewedAt with
       | none => true
       | some t => decide (now - t > hoursThreshold * (60 * 60 * 1000))))

/-- `getPRsNeedingReview` (src/pr-tracker.ts lines 106-110). -/
def getPRsNeedingReview (s : Store) : List TrackedPR :=
  (getTrackedPRs s).filter (fun pr =>
    pr.lastReviewedAt.isNone || decide (pr.reviewCount = some 0))

/-- `formatPRAge` (src/pr-tracker.ts lines 185-196). -/
def formatPRAge (pr : TrackedPR) : String :=
  if pr.age < 1 then "just opened"
  else if pr.age < 24 then toString pr.age ++ "h old"
  else toString (Int.fdiv pr.age 24) ++ "d old"

/-- An open pull request as returned by the source-of-truth list call
(`octokit.pulls.list`, the fields read by src/pr-tracker.ts). -/
structure GhPR where
  number : Nat
  title : String
  html_url : String
  user_login : Option String
  created_at : Int
  updated_at : Int
  draft : Bool
deriving DecidableEq

/-- A review as returned by `octokit.pulls.listReviews` (the fields read
by the tracker), in submission order. -/
structure GhReview where
  user_login : Option String
  submitted_at : Int
deriving DecidableEq

/-- Outcome of a `syncWithGitHub` run: the final state of the shared map
together with whether the run completed (`ok = false` models the JS
function throwing, with the mutations performed so far retained). -/
structure SyncResult where
  store : Store
  ok : Bool
deriving DecidableEq

/-- The `prData` record built inside the sync loop
(src/pr-tracker.ts lines 151-163). -/
def prDataOfGh (owner repo : String) (pr : GhPR) (reviews : List GhReview) : PRData :=
  { number := pr.number,
    title := pr.title,
    url := pr.html_url,
    author := jsOrStr pr.user_login "unknown",
    createdAt := pr.created_at,
    owner := owner,
    repo := repo,
    isDraft := pr.draft,
    lastReviewedAt := (reviews.getLast?).map GhReview.submitted_at,
    lastUpdated := some pr.updated_at,
    reviewCount := some (reviews.length : Int) }

/-- The reviewer patch after `trackPR` in the sync loop
(src/pr-tracker.ts lines 168-172): mutate the tracked entry's
`reviewers` field in place, if the entry exists. -/
def setStoreReviewers (n : Nat) (reviewers : List String) (s : Store) : Store :=
  match storeGet s n with
  | none => s
  | some pr => storeSet n { pr with reviewers := reviewers } s

/-- The full record that processing one open non-draft PR leaves in the
store, given the constant `c` that `trackPR` preserves as the review
count (the prior entry's count, or 0). -/
def syncEntry (owner repo : String) (now : Int) (pr : GhPR) (reviews : List GhReview)
    (c : Int) : TrackedPR :=
  { number := pr.number,
    title := pr.title,
    url := pr.html_url,
    author := jsOrStr pr.user_login "unknown",
    createdAt := pr.created_at,
    owner := owner,
    repo := repo,
    isDraft := pr.draft,
    lastReviewedAt := (reviews.getLast?).map GhReview.submitted_at,
    lastUpdated := some pr.updated_at,
    reviewCount := some c,
    reviewers := jsSetDedup (reviews.map (fun rv => jsOrStr rv.user_login "unknown")),
    age := Int.fdiv (now - pr.created_at) (1000 * 60 * 60) }

/-- The per-PR loop of `syncWithGitHub` (src/pr-tracker.ts lines 135-173):
drafts are skipped; a failed review fetch escapes the loop (the thrown
error is rethrown by the outer catch), leaving the mutations already
applied in place; a successful fetch upserts via `trackPR` and then
overwrites `reviewers` with the deduplicated reviewer set. -/
def syncLoop (owner repo : String) (fetchReviews : Nat → Except Unit (List GhReview))
    (now : Int) : List GhPR → Store → SyncResult
  | [], s => ⟨s, true⟩
  | pr :: rest, s =>
    if pr.draft then
      syncLoop owner repo fetchReviews now rest s
    else
      match fetchReviews pr.number with
      | Except.error _ => ⟨s, false⟩
      | Except.ok reviews =>
        syncLoop owner repo fetchReviews now rest
          (setStoreReviewers pr.number
            (jsSetDedup (reviews.map (fun rv => jsOrStr rv.user_login "unknown")))
            (trackPR (prDataOfGh owner repo pr reviews) now s))

/-- The pruning step of `syncWithGitHub` (src/pr-tracker.ts lines 127-132):
delete every tracked entry whose number is not in the fetched open set.
Deleting from a JS Map while iterating its keys preserves the order of
the remaining entries, so this is a filter. -/
def prune (openNumbers : List Nat) (s : Store) : Store :=
  s.filter (fun kv => decide (kv.1 ∈ openNumbers))

/-- `syncWithGitHub` (src/pr-tracker.ts lines 115-180).  A failure of the
open-PR list fetch throws before any mutation; otherwise the store is
pruned and the per-PR loop runs. -/
def syncWithGitHub (owner repo : String) (fetchOpenPRs : Except Unit (List GhPR))
    (fetchReviews : Nat → Except Unit (List GhReview)) (now : Int) (s : Store) : SyncResult :=
  match fetchOpenPRs with
  | Except.error _ => ⟨s, false⟩
  | Except.ok pullRequests =>
    syncLoop owner repo fetchReviews now pullRequests
      (prune (pullRequests.map GhPR.number) s)

/-- The `pull_request` webhook payload fields read by
src/github-webhook.ts. -/
structure WebhookPRPayload where
  number : Nat
  title : String
  html_url : String
  user_login : String
  created_at : Int
  state : String
  draft : Bool
deriving DecidableEq

/-- The `review` webhook payload fields read by src/github-webhook.ts. -/
structure ReviewPayload where
  state : String
  user_login : String
  submitted_at : Int
deriving DecidableEq

/-- The `prData` built by the webhook handlers
(src/github-webhook.ts lines 97-106): no `lastReviewedAt`,
`lastUpdated` or `reviewCount` fields. -/
def prDataOfWebhook (pr : WebhookPRPayload) (owner repo : String) : PRData :=
  { number := pr.number,
    title := pr.title,
    url := pr.html_url,
    author := pr.user_login,
    createdAt := pr.created_at,
    owner := owner,
    repo := repo,
    isDraft := pr.draft }

/-- `handlePullRequestEvent` (src/github-webhook.ts lines 90-144), with
the notification side effects dropped.  Only the `opened` action checks
the draft flag before tracking. -/
def handlePullRequestEvent (action : String) (pr : WebhookPRPayload)
    (owner repo : String) (now : Int) (s : Store) : Store :=
  if action = "opened" then
    (if pr.draft then s else trackPR (prDataOfWebhook pr owner repo) now s)
  else if action = "ready_for_review" then
    trackPR (prDataOfWebhook pr owner repo) now s
  else if action = "closed" then
    (if pr.state = "closed" then removePR pr.number s else s)
  else if action = "reopened" then
    trackPR (prDataOfWebhook pr owner repo) now s
  else if action = "synchronize" then
    (updatePRStatus pr.number { lastUpdated := some now } s).1
  else s

/-- `handlePullRequestReviewEvent` (src/github-webhook.ts lines 149-186),
with the notification side effect dropped: a submitted review records the
submission timestamp and a review-count delta of 1. -/
def handlePullRequestReviewEvent (action : String) (pr : WebhookPRPayload)
    (review : ReviewPayload) (s : Store) : Store :=
  if action = "submitted" then
    (updatePRStatus pr.number
      { lastReviewedAt := some review.submitted_at, reviewCount := some 1 } s).1
  else s

/-- `formatTimeDifference` (src/metrics section of index.ts, lines
121-136), over exact rational milliseconds (JS floats on these
magnitudes behave exactly). -/
def formatTimeDifference (milliseconds : ℚ) : String :=
  if milliseconds / (1000 * 60 * 60) < 1 then
    toString ⌊milliseconds / (1000 * 60)⌋ ++ "m"
  else if milliseconds / (1000 * 60 * 60) < 24 then
    toString ⌊milliseconds / (1000 * 60 * 60)⌋ ++ "h"
  else if ⌊milliseconds / (1000 * 60 * 60) / 24⌋ = 1 then "1 day"
  else toString ⌊milliseconds / (1000 * 60 * 60) / 24⌋ ++ " days"

/-- The average time-to-first-review computation of `getPRMetrics`
(index.ts metrics section, lines 161-190): each sampled merged PR is a
pair of its creation time and the outcome of fetching its reviews
(`none` models a failed fetch, skipped without aborting); PRs with no
reviews are skipped; the mean is formatted, or "N/A" with no sample. -/
def averageReviewTimeString (sample : List (Int × Option (List GhReview))) : String :=
  let acc := sample.foldl
    (fun acc pr =>
      match pr.2 with
      | none => acc
      | some reviews =>
        match reviews.head? with
        | none => acc
        | some firstReview =>
          (acc.1 + ((firstReview.submitted_at : ℚ) - (pr.1 : ℚ)), acc.2 + 1))
    ((0 : ℚ), (0 : Nat))
  if acc.2 > 0 then formatTimeDifference (acc.1 / (acc.2 : ℚ)) else "N/A"

/-- The average time-to-merge computation of `getPRMetrics` (index.ts
metrics section, lines 193-208): pairs of creation time and optional
merge time over the sampled PRs. -/
def averageMergeTimeString (sample : List (Int × Option Int)) : String :=
  let acc := sample.foldl
    (fun acc pr =>
      match pr.2 with
      | none => acc
      | some mergedAt => (acc.1 + ((mergedAt : ℚ) - (pr.1 : ℚ)), acc.2 + 1))
    ((0 : ℚ), (0 : Nat))
  if acc.2 > 0 then formatTimeDifference (acc.1 / (acc.2 : ℚ)) else "N/A"

/-! Basic facts about the association-list map. -/

theorem storeGet_storeSet_self (k : Nat) (v : TrackedPR) (s : Store) :
    storeGet (storeSet k v s) k = some v := by
  induction s with
  | nil => simp [storeSet, storeGet]
  | cons kv rest ih =>
    obtain ⟨k0, v0⟩ := kv
    by_cases h : k0 = k
    · simp [storeSet, storeGet, h]
    · simp [storeSet, storeGet, h, ih]

theorem storeGet_storeSet_ne (k k' : Nat) (v : TrackedPR) (s : Store) (h : k' ≠ k) :
    storeGet (storeSet k v s) k' = storeGet s k' := by
  have h2 : ¬(k = k') := fun hh => h hh.symm
  induction s with
  | nil => simp [storeSet, storeGet, h2]
  | cons kv rest ih =>
    obtain ⟨k0, v0⟩ := kv
    by_cases hk : k0 = k
    · subst hk
      simp [storeSet, storeGet, h2]
    · by_cases hk' : k0 = k'
      · simp [storeSet, storeGet, hk, hk', h]
      · simp [storeSet, storeGet, hk, hk', ih]

theorem storeSet_storeSet_self (k : Nat) (v1 v2 : TrackedPR) (s : Store) :
    storeSet k v2 (storeSet k v1 s) = storeSet k v2 s := by
  induction s with
  | nil => simp [storeSet]
  | cons kv rest ih =>
    obtain ⟨k0, v0⟩ := kv
    by_cases h : k0 = k
    · simp [storeSet, h]
    · simp [storeSet, h, ih]

theorem storeSet_eq_self (k : Nat) (v : TrackedPR) : ∀ (s : Store),
    storeGet s k = some v → storeSet k v s = s := by
  intro s
  induction s with
  | nil => intro h; simp [storeGet] at h
  | cons kv rest ih =>
    obtain ⟨k0, v0⟩ := kv
    intro h
    by_cases hk : k0 = k
    · subst hk
      simp [storeGet] at h
      simp [storeSet, h]
    · simp [storeGet, hk] at h
      simp [storeSet, hk, ih h]

theorem mem_storeSet (k : Nat) (v : TrackedPR) : ∀ (s : Store) (kv : Nat × TrackedPR),
    kv ∈ storeSet k v s → kv = (k, v) ∨ kv ∈ s := by
  intro s
  induction s with
  | nil => intro kv h; simp [storeSet] at h; simp [h]
  | cons kv0 rest ih =>
    obtain ⟨k0, v0⟩ := kv0
    intro kv h
    by_cases hk : k0 = k
    · simp [storeSet, hk] at h
      rcases h with h | h
      · exact Or.inl (by simp [h])
      · exact Or.inr (List.mem_cons_of_mem _ h)
    · simp [storeSet, hk] at h
      rcases h with h | h
      · exact Or.inr (by simp [h])
      · rcases ih kv h with h' | h'
        · exact Or.inl h'
        · exact Or.inr (List.mem_cons_of_mem _ h')

/-! Facts about the pruning step. -/

theorem mem_prune (nums : List Nat) (s : Store) (kv : Nat × TrackedPR)
    (h : kv ∈ prune nums s) : kv ∈ s ∧ kv.1 ∈ nums := by
  simpa [prune, List.mem_filter] using h

theorem prune_eq_self (nums : List Nat) : ∀ (s : Store),
    (∀ kv ∈ s, kv.1 ∈ nums) → prune nums s = s := by
  intro s
  induction s with
  | nil => intro _; rfl
  | cons kv rest ih =>
    intro h
    have hkv : kv.1 ∈ nums := h kv (List.mem_cons_self _ _)
    have hrest : ∀ kv' ∈ rest, kv'.1 ∈ nums :=
      fun kv' h' => h kv' (List.mem_cons_of_mem _ h')
    have hr := ih hrest
    simp [prune, hkv]
    simpa [prune] using hr

theorem storeGet_prune_not_mem (nums : List Nat) (s : Store) (k : Nat)
    (h : k ∉ nums) : storeGet (prune nums s) k = none := by
  induction s with
  | nil => rfl
  | cons kv rest ih =>
    obtain ⟨k0, v0⟩ := kv
    by_cases hm : k0 ∈ nums
    · have hk : ¬(k0 = k) := fun hh => h (hh ▸ hm)
      simpa [prune, hm, storeGet, hk] using ih
    · simpa [prune, hm] using ih

theorem storeGet_prune_some (nums : List Nat) : ∀ (s : Store) (k : Nat) (e : TrackedPR),
    storeGet (prune nums s) k = some e → storeGet s k = some e := by
  intro s
  induction s with
  | nil => intro k e h; simp [prune, storeGet] at h
  | cons kv rest ih =>
    obtain ⟨k0, v0⟩ := kv
    intro k e h
    by_cases hm : k0 ∈ nums
    · have hstep : prune nums ((k0, v0) :: rest) = (k0, v0) :: prune nums rest := by
        simp [prune, hm]
      rw [hstep] at h
      by_cases hk : k0 = k
      · simpa [storeGet, hk] using h
      · simp [storeGet, hk] at h ⊢
        exact ih k e h
    · have hstep : prune nums ((k0, v0) :: rest) = prune nums rest := by
        simp [prune, hm]
      rw [hstep] at h
      by_cases hk : k0 = k
      · subst hk
        rw [storeGet_prune_not_mem nums rest k0 hm] at h
        simp at h
      · simp [storeGet, hk]
        exact ih k e h

/-! Step equations and structural facts about the sync loop. -/

theorem syncEntry_reviewCount (o r : String) (now : Int) (pr : GhPR)
    (rvs : List GhReview) (c : Int) : (syncEntry o r now pr rvs c).reviewCount = some c := rfl

theorem syncProcess_eq (o r : String) (now : Int) (pr : GhPR) (reviews : List GhReview)
    (s : Store) :
    setStoreReviewers pr.number
      (jsSetDedup (reviews.map (fun rv => jsOrStr rv.user_login "unknown")))
      (trackPR (prDataOfGh o r pr reviews) now s) =
    storeSet pr.number
      (syncEntry o r now pr reviews
        (((storeGet s pr.number).bind TrackedPR.reviewCount).getD 0)) s := by
  simp only [setStoreReviewers, trackPR, prDataOfGh, storeGet_storeSet_self]
  rw [storeSet_storeSet_self]
  rfl

theorem syncLoop_cons_draft {o r : String} {R : Nat → Except Unit (List GhReview)}
    {now : Int} {pr : GhPR} {rest : List GhPR} {s : Store} (hd : pr.draft = true) :
    syncLoop o r R now (pr :: rest) s = syncLoop o r R now rest s := by
  simp [syncLoop, hd]

theorem syncLoop_cons_err {o r : String} {R : Nat → Except Unit (List GhReview)}
    {now : Int} {pr : GhPR} {rest : List GhPR} {s : Store} (hd : pr.draft = false)
    (hR : R pr.number = Except.error ()) :
    syncLoop o r R now (pr :: rest) s = ⟨s, false⟩ := by
  simp [syncLoop, hd, hR]

theorem syncLoop_cons_ok {o r : String} {R : Nat → Except Unit (List GhReview)}
    {now : Int} {pr : GhPR} {rest : List GhPR} {s : Store} {rvs : List GhReview}
    (hd : pr.draft = false) (hR : R pr.number = Except.ok rvs) :
    syncLoop o r R now (pr :: rest) s =
      syncLoop o r R now rest
        (storeSet pr.number
          (syncEntry o r now pr rvs
            (((storeGet s pr.number).bind TrackedPR.reviewCount).getD 0)) s) := by
  simp [syncLoop, hd, hR, syncProcess_eq]

theorem syncLoop_frame (o r : String) (R : Nat → Except Unit (List GhReview)) (now : Int) :
    ∀ (prs : List GhPR) (s : Store) (k : Nat), k ∉ prs.map GhPR.number →
      storeGet (syncLoop o r R now prs s).store k = storeGet s k := by
  intro prs
  induction prs with
  | nil => intro s k _; rfl
  | cons pr rest ih =>
    intro s k hk
    simp only [List.map_cons, List.mem_cons, not_or] at hk
    obtain ⟨hk1, hk2⟩ := hk
    cases hd : pr.draft with
    | true =>
      rw [syncLoop_cons_draft hd]
      exact ih s k hk2
    | false =>
      cases hR : R pr.number with
      | error u =>
        cases u
        rw [syncLoop_cons_err hd hR]
      | ok rvs =>
        rw [syncLoop_cons_ok hd hR, ih _ k hk2]
        exact storeGet_storeSet_ne _ _ _ _ hk1

theorem syncLoop_ok_of (o r : String) (R : Nat → Except Unit (List GhReview)) (now : Int) :
    ∀ (prs : List GhPR) (s : Store),
      (∀ pr ∈ prs, pr.draft = false → ∃ rvs, R pr.number = Except.ok rvs) →
      (syncLoop o r R now prs s).ok = true := by
  intro prs
  induction prs with
  | nil => intro s _; rfl
  | cons pr rest ih =>
    intro s h
    cases hd : pr.draft with
    | true =>
      rw [syncLoop_cons_draft hd]
      exact ih s (fun pr' hm hd' => h pr' (List.mem_cons_of_mem _ hm) hd')
    | false =>
      obtain ⟨rvs, hR⟩ := h pr (List.mem_cons_self _ _) hd
      rw [syncLoop_cons_ok hd hR]
      exact ih _ (fun pr' hm hd' => h pr' (List.mem_cons_of_mem _ hm) hd')

theorem syncLoop_append (o r : String) (R : Nat → Except Unit (List GhReview)) (now : Int) :
    ∀ (a b : List GhPR) (s : Store),
      (syncLoop o r R now a s).ok = true →
      syncLoop o r R now (a ++ b) s = syncLoop o r R now b (syncLoop o r R now a s).store := by
  intro a
  induction a with
  | nil => intro b s _; rfl
  | cons pr rest ih =>
    intro b s hok
    cases hd : pr.draft with
    | true =>
      rw [syncLoop_cons_draft hd] at hok
      rw [List.cons_append, syncLoop_cons_draft hd, syncLoop_cons_draft hd]
      exact ih b s hok
    | false =>
      cases hR : R pr.number with
      | error u =>
        cases u
        rw [syncLoop_cons_err hd hR] at hok
        simp at hok
      | ok rvs =>
        rw [syncLoop_cons_ok hd hR] at hok
        rw [List.cons_append, syncLoop_cons_ok hd hR, syncLoop_cons_ok hd hR]
        exact ih b _ hok

theorem mem_syncLoop_store (o r : String) (R : Nat → Except Unit (List GhReview)) (now : Int) :
    ∀ (prs : List GhPR) (s : Store) (kv : Nat × TrackedPR),
      kv ∈ (syncLoop o r R now prs s).store → kv ∈ s ∨ kv.1 ∈ prs.map GhPR.number := by
  intro prs
  induction prs with
  | nil => intro s kv h; exact Or.inl h
  | cons pr rest ih =>
    intro s kv h
    cases hd : pr.draft with
    | true =>
      rw [syncLoop_cons_draft hd] at h
      rcases ih s kv h with h' | h'
      · exact Or.inl h'
      · exact Or.inr (by simp [h'])
    | false =>
      cases hR : R pr.number with
      | error u =>
        cases u
        rw [syncLoop_cons_err hd hR] at h
        exact Or.inl h
      | ok rvs =>
        rw [syncLoop_cons_ok hd hR] at h
        rcases ih _ kv h with h' | h'
        · rcases mem_storeSet _ _ _ kv h' with h'' | h''
          · exact Or.inr (by simp [h''])
          · exact Or.inl h''
        · exact Or.inr (by simp [h'])

theorem syncLoop_get_of_ok (o r : String) (R : Nat → Except Unit (List GhReview)) (now : Int) :
    ∀ (prs : List GhPR) (s : Store),
      (prs.map GhPR.number).Nodup →
      (syncLoop o r R now prs s).ok = true →
      ∀ pr ∈ prs, pr.draft = false →
        ∃ rvs c, R pr.number = Except.ok rvs ∧
          storeGet (syncLoop o r R now prs s).store pr.number =
            some (syncEntry o r now pr rvs c) := by
  intro prs
  induction prs with
  | nil => intro s _ _ pr hm; exact absurd hm (List.not_mem_nil _)
  | cons pr0 rest ih =>
    intro s hnd hok pr hm hd
    simp only [List.map_cons, List.nodup_cons] at hnd
    obtain ⟨hhead, hnd'⟩ := hnd
    cases hd0 : pr0.draft with
    | true =>
      rw [syncLoop_cons_draft hd0] at hok ⊢
      rcases List.mem_cons.mp hm with heq | hmem
      · subst heq
        rw [hd] at hd0
        cases hd0
      · exact ih s hnd' hok pr hmem hd
    | false =>
      cases hR : R pr0.number with
      | error u =>
        cases u
        rw [syncLoop_cons_err hd0 hR] at hok
        simp at hok
      | ok rvs =>
        rw [syncLoop_cons_ok hd0 hR] at hok ⊢
        rcases List.mem_cons.mp hm with heq | hmem
        · subst heq
          refine ⟨rvs, ((storeGet s pr.number).bind TrackedPR.reviewCount).getD 0, hR, ?_⟩
          rw [syncLoop_frame o r R now rest _ pr.number hhead]
          exact storeGet_storeSet_self _ _ _
        · exact ih _ hnd' hok pr hmem hd

theorem syncLoop_fix (o r : String) (R : Nat → Except Unit (List GhReview)) (now : Int) :
    ∀ (prs : List GhPR) (s : Store),
      (∀ pr ∈ prs, pr.draft = false →
        ∃ rvs c, R pr.number = Except.ok rvs ∧
          storeGet s pr.number = some (syncEntry o r now pr rvs c)) →
      syncLoop o r R now prs s = ⟨s, true⟩ := by
  intro prs
  induction prs with
  | nil => intro s _; rfl
  | cons pr0 rest ih =>
    intro s h
    cases hd0 : pr0.draft with
    | true =>
      rw [syncLoop_cons_draft hd0]
      exact ih s (fun pr hm hd => h pr (List.mem_cons_of_mem _ hm) hd)
    | false =>
      obtain ⟨rvs, c, hR, hget⟩ := h pr0 (List.mem_cons_self _ _) hd0
      rw [syncLoop_cons_ok hd0 hR]
      have hc : ((storeGet s pr0.number).bind TrackedPR.reviewCount).getD 0 = c := by
        rw [hget]; rfl
      rw [hc, storeSet_eq_self _ _ _ hget]
      exact ih s (fun pr hm hd => h pr (List.mem_cons_of_mem _ hm) hd)

/-! Concrete fixtures and the claims. -/

def c1PR1 : GhPR :=
  { number := 31, title := "a", html_url := "ua", user_login := some "al",
    created_at := 0, updated_at := 0, draft := false }

def c1PR2 : GhPR :=
  { number := 32, title := "b", html_url := "ub", user_login := some "be",
    created_at := 0, updated_at := 0, draft := false }

def c1Fetch : Nat → Except Unit (List GhReview) :=
  fun n => if n = 31 then Except.error () else Except.ok [⟨some "rev", 5⟩]

/-- C1 (counterexample): a sync run over two open non-draft PRs in which
the review fetch fails for exactly the first PR does abort (the error is
rethrown) and the second PR is never upserted, contradicting the claim
that every other open non-draft PR is still upserted. -/
theorem C1_counterexample :
    (syncWithGitHub "o" "r" (Except.ok [c1PR1, c1PR2]) c1Fetch 0 []).ok = false ∧
    storeGet (syncWithGitHub "o" "r" (Except.ok [c1PR1, c1PR2]) c1Fetch 0 []).store 32 =
      none := by
  decide

/-- C1 (amended): when the review fetch fails for one open non-draft PR,
reconciliation aborts at that PR and surfaces the failure: the store
reflects exactly the pruning step plus the upserts of the PRs processed
before the failing one; in particular the failing PR's own entry (or
absence) is exactly what pruning left, provided no earlier PR shares its
number. -/
theorem C1_theorem (o r : String) (pre post : List GhPR) (bad : GhPR)
    (R : Nat → Except Unit (List GhReview)) (now : Int) (s : Store)
    (hb : bad.draft = false) (hbR : R bad.number = Except.error ())
    (hpre : ∀ pr ∈ pre, pr.draft = false → ∃ rvs, R pr.number = Except.ok rvs) :
    syncWithGitHub o r (Except.ok (pre ++ bad :: post)) R now s =
      ⟨(syncLoop o r R now pre
          (prune ((pre ++ bad :: post).map GhPR.number) s)).store, false⟩ ∧
    (bad.number ∉ pre.map GhPR.number →
      storeGet (syncWithGitHub o r (Except.ok (pre ++ bad :: post)) R now s).store
          bad.number =
        storeGet (prune ((pre ++ bad :: post).map GhPR.number) s) bad.number) := by
  have hok : (syncLoop o r R now pre
      (prune ((pre ++ bad :: post).map GhPR.number) s)).ok = true :=
    syncLoop_ok_of o r R now pre _ hpre
  have hmain : syncWithGitHub o r (Except.ok (pre ++ bad :: post)) R now s =
      ⟨(syncLoop o r R now pre
          (prune ((pre ++ bad :: post).map GhPR.number) s)).store, false⟩ := by
    show syncLoop o r R now (pre ++ bad :: post)
        (prune ((pre ++ bad :: post).map GhPR.number) s) = _
    rw [syncLoop_append o r R now pre (bad :: post) _ hok]
    exact syncLoop_cons_err hb hbR
  refine ⟨hmain, fun hnm => ?_⟩
  rw [hmain]
  exact syncLoop_frame o r R now pre _ bad.number hnm

/-- C1 (witness): the amended statement instantiated at a two-PR list
whose second PR's review fetch fails. -/
theorem C1_witness :
    (syncWithGitHub "o" "r" (Except.ok ([c1PR2] ++ c1PR1 :: [])) c1Fetch 0 [] =
      ⟨(syncLoop "o" "r" c1Fetch 0 [c1PR2]
          (prune (([c1PR2] ++ c1PR1 :: []).map GhPR.number) [])).store, false⟩) ∧
    storeGet (syncWithGitHub "o" "r" (Except.ok ([c1PR2] ++ c1PR1 :: []))
          c1Fetch 0 []).store c1PR1.number =
      storeGet (prune (([c1PR2] ++ c1PR1 :: []).map GhPR.number) []) c1PR1.number := by
  have h := C1_theorem ("o") ("r") [c1PR2] [] c1PR1 c1Fetch 0 [] rfl rfl
    (by
      intro pr hm hd
      have hpr : pr = c1PR2 := by simpa using hm
      subst hpr
      exact ⟨[⟨some "rev", 5⟩], rfl⟩)
  exact ⟨h.1, h.2 (by decide)⟩

def c2PR : GhPR :=
  { number := 1, title := "t", html_url := "u", user_login := some "alice",
    created_at := 0, updated_at := 50, draft := false }

def c2Fetch : Nat → Except Unit (List GhReview) :=
  fun _ => Except.ok [⟨some "bob", 100⟩, ⟨some "carol", 200⟩]

/-- C2: after a successful sync of one new open non-draft PR with two
fetched reviews, the store entry carries the deduplicated reviewer set
and the last submission timestamp, but its `reviewCount` is 0, not the
fetched total of 2: `trackPR` discards the `reviews.length` computed into
`prData` and the post-track patch only overwrites `reviewers`. -/
theorem C2_theorem :
    (syncWithGitHub "o" "r" (Except.ok [c2PR]) c2Fetch 3600000 []).ok = true ∧
    (storeGet (syncWithGitHub "o" "r" (Except.ok [c2PR]) c2Fetch 3600000 []).store 1).map
        TrackedPR.reviewers = some ["bob", "carol"] ∧
    (storeGet (syncWithGitHub "o" "r" (Except.ok [c2PR]) c2Fetch 3600000 []).store 1).map
        TrackedPR.lastReviewedAt = some (some 200) ∧
    (storeGet (syncWithGitHub "o" "r" (Except.ok [c2PR]) c2Fetch 3600000 []).store 1).map
        TrackedPR.reviewCount = some (some 0) ∧
    (storeGet (syncWithGitHub "o" "r" (Except.ok [c2PR]) c2Fetch 3600000 []).store 1).map
        TrackedPR.reviewCount ≠ some (some 2) := by
  decide

def c5PR1 : GhPR :=
  { number := 41, title := "x", html_url := "ux", user_login := some "xa",
    created_at := 0, updated_at := 0, draft := false }

def c5PR2 : GhPR :=
  { number := 42, title := "y", html_url := "uy", user_login := some "ya",
    created_at := 0, updated_at := 0, draft := false }

def c5Fetch : Nat → Except Unit (List GhReview) :=
  fun n => if n = 41 then Except.ok [⟨some "dana", 10⟩] else Except.error ()

/-- C5 (counterexample): a sync run that surfaces a failure (the review
fetch for the second PR throws) nevertheless leaves the store changed:
the first PR was upserted before the failure, contradicting the claim
that an aborted reconciliation performs no partial writes. -/
theorem C5_counterexample :
    (syncWithGitHub "o" "r" (Except.ok [c5PR1, c5PR2]) c5Fetch 0 []).ok = false ∧
    (syncWithGitHub "o" "r" (Except.ok [c5PR1, c5PR2]) c5Fetch 0 []).store ≠
      ([] : Store) := by
  decide

/-- C5 (amended): only a batch-level failure — the open-PR list fetch
itself failing — leaves the store exactly as it was before the sync
began; a per-PR review-fetch failure also surfaces, but the pruning and
the upserts performed before the failure persist. -/
theorem C5_theorem (o r : String) (R : Nat → Except Unit (List GhReview))
    (now : Int) (s : Store) :
    syncWithGitHub o r (Except.error ()) R now s = ⟨s, false⟩ := rfl

/-- C3: reconciliation is idempotent — a second sync against the same
upstream source (same open-PR list with distinct numbers, same per-PR
review lists, same clock), run from the store the first successful sync
produced, yields exactly the same store (and succeeds). -/
theorem C3_theorem (o r : String) (prs : List GhPR) (R : Nat → Except Unit (List GhReview))
    (now : Int) (s : Store) (hnd : (prs.map GhPR.number).Nodup)
    (h1 : (syncWithGitHub o r (Except.ok prs) R now s).ok = true) :
    syncWithGitHub o r (Except.ok prs) R now
        ((syncWithGitHub o r (Except.ok prs) R now s).store) =
      syncWithGitHub o r (Except.ok prs) R now s := by
  have hok : (syncLoop o r R now prs (prune (prs.map GhPR.number) s)).ok = true := h1
  have hT := syncLoop_get_of_ok o r R now prs (prune (prs.map GhPR.number) s) hnd hok
  have hkeys : ∀ kv ∈ (syncLoop o r R now prs (prune (prs.map GhPR.number) s)).store,
      kv.1 ∈ prs.map GhPR.number := by
    intro kv hkv
    rcases mem_syncLoop_store o r R now prs _ kv hkv with h' | h'
    · exact (mem_prune _ _ _ h').2
    · exact h'
  have hprune : prune (prs.map GhPR.number)
      (syncLoop o r R now prs (prune (prs.map GhPR.number) s)).store =
      (syncLoop o r R now prs (prune (prs.map GhPR.number) s)).store :=
    prune_eq_self _ _ hkeys
  have hfix : syncLoop o r R now prs
      (syncLoop o r R now prs (prune (prs.map GhPR.number) s)).store =
      ⟨(syncLoop o r R now prs (prune (prs.map GhPR.number) s)).store, true⟩ :=
    syncLoop_fix o r R now prs _ (fun pr hm hd => hT pr hm hd)
  change syncLoop o r R now prs (prune (prs.map GhPR.number)
      ((syncLoop o r R now prs (prune (prs.map GhPR.number) s)).store)) =
    syncLoop o r R now prs (prune (prs.map GhPR.number) s)
  rw [hprune, hfix, ← hok]

def c3PR : GhPR :=
  { number := 21, title := "c", html_url := "uc", user_login := some "ca",
    created_at := 0, updated_at := 10, draft := false }

def c3Fetch : Nat → Except Unit (List GhReview) :=
  fun _ => Except.ok [⟨some "r1", 7⟩, ⟨some "r1", 9⟩]

/-- C3 (witness): idempotence instantiated at a one-PR upstream with two
reviews by the same reviewer, starting from the empty store. -/
theorem C3_witness :
    syncWithGitHub "o" "r" (Except.ok [c3PR]) c3Fetch 3600000
        ((syncWithGitHub "o" "r" (Except.ok [c3PR]) c3Fetch 3600000 []).store) =
      syncWithGitHub "o" "r" (Except.ok [c3PR]) c3Fetch 3600000 [] :=
  C3_theorem ("o") ("r") [c3PR] c3Fetch 3600000 [] (by decide) (by decide)

theorem syncLoop_draft_entry (o r : String) (R : Nat → Except Unit (List GhReview))
    (now : Int) : ∀ (prs : List GhPR) (s : Store) (k : Nat) (e : TrackedPR),
    storeGet (syncLoop o r R now prs s).store k = some e → e.isDraft = true →
      storeGet s k = some e := by
  intro prs
  induction prs with
  | nil => intro s k e h _; exact h
  | cons pr rest ih =>
    intro s k e h hdr
    cases hd : pr.draft with
    | true =>
      rw [syncLoop_cons_draft hd] at h
      exact ih s k e h hdr
    | false =>
      cases hR : R pr.number with
      | error u =>
        cases u
        rw [syncLoop_cons_err hd hR] at h
        exact h
      | ok rvs =>
        rw [syncLoop_cons_ok hd hR] at h
        have h2 := ih _ k e h hdr
        by_cases hk : k = pr.number
        · rw [hk, storeGet_storeSet_self] at h2
          have he : syncEntry o r now pr rvs
              (((storeGet s pr.number).bind TrackedPR.reviewCount).getD 0) = e := by
            injection h2
          have hdr2 : pr.draft = true := by
            rw [← he] at hdr
            exact hdr
          rw [hd] at hdr2
          cases hdr2
        · rw [storeGet_storeSet_ne _ _ _ _ hk] at h2
          exact h2

def c4PR : WebhookPRPayload :=
  { number := 7, title := "d", html_url := "ud", user_login := "auth",
    created_at := 0, state := "open", draft := true }

/-- C4 (counterexample): a `reopened` webhook action for a draft PR is
tracked without any draft check, so after one ingestion operation the
store contains a record with `isDraft = true`, contradicting the claimed
invariant that the store never contains a draft PR. -/
theorem C4_counterexample :
    (storeGet (handlePullRequestEvent "reopened" c4PR "o" "r" 0 []) 7).map
      TrackedPR.isDraft = some true := by
  decide

/-- C4 (amended): draft filtering happens only on the `opened` ingestion
action (a draft `opened` event leaves the store unchanged) and at
reconciliation upserts (a sync run never introduces a draft entry: any
draft record in its output store was already present, unchanged, in the
input store); `track` itself does not filter, so the `reopened` and
`ready_for_review` actions can insert a draft record. -/
theorem C4_theorem :
    (∀ (pr : WebhookPRPayload) (o r : String) (now : Int) (s : Store),
      pr.draft = true → handlePullRequestEvent "opened" pr o r now s = s) ∧
    (∀ (o r : String) (L : List GhPR) (R : Nat → Except Unit (List GhReview))
      (now : Int) (s : Store) (k : Nat) (e : TrackedPR),
      storeGet (syncWithGitHub o r (Except.ok L) R now s).store k = some e →
      e.isDraft = true → storeGet s k = some e) := by
  constructor
  · intro pr o r now s hdr
    simp [handlePullRequestEvent, hdr]
  · intro o r L R now s k e h hdr
    have h2 := syncLoop_draft_entry o r R now L (prune (L.map GhPR.number) s) k e h hdr
    exact storeGet_prune_some _ _ _ _ h2

def c4Draft : TrackedPR :=
  { number := 5, title := "t5", url := "u5", author := "a5", createdAt := 0,
    owner := "o", repo := "r", isDraft := true, lastReviewedAt := none,
    lastUpdated := none, reviewCount := some 0, reviewers := [], age := 0 }

def c4Gh : GhPR :=
  { number := 5, title := "t5", html_url := "u5", user_login := some "a5",
    created_at := 0, updated_at := 0, draft := true }

def c4Fetch : Nat → Except Unit (List GhReview) := fun _ => Except.ok []

/-- C4 (witness): the amended statement instantiated at a concrete draft
`opened` event and at a sync whose output still contains a pre-existing
draft entry. -/
theorem C4_witness :
    handlePullRequestEvent "opened" c4PR "o" "r" 0 [] = [] ∧
    storeGet [(5, c4Draft)] 5 = some c4Draft := by
  refine ⟨C4_theorem.1 c4PR "o" "r" 0 [] rfl, ?_⟩
  exact C4_theorem.2 "o" "r" [c4Gh] c4Fetch 0 [(5, c4Draft)] 5 c4Draft (by decide) rfl

def c6now : Int := 360000000

def c6prNoReview : TrackedPR :=
  { number := 1, title := "p", url := "up", author := "aa",
    createdAt := c6now - 30 * 3600000, owner := "o", repo := "r", isDraft := false,
    lastReviewedAt := none, lastUpdated := none, reviewCount := some 0,
    reviewers := [], age := 30 }

def c6prRecent : TrackedPR :=
  { c6prNoReview with lastReviewedAt := some (c6now - 3600000), reviewCount := some 1 }

def c6prOld : TrackedPR :=
  { c6prNoReview with
    createdAt := c6now - 72 * 3600000,
    lastReviewedAt := some (c6now - 48 * 3600000),
    reviewCount := some 1,
    age := 72 }

/-- C6: `getPRsNeedingReview` returns exactly the tracked PRs with a zero
review count or no recorded review, and `getStalePRs` returns exactly the
tracked PRs older than the threshold with no review inside the threshold
window; concretely, at threshold 24h a PR created 30h ago with no reviews
is both stale and needing review, the same PR after one review 1h ago is
neither, and a PR last reviewed 48h ago is stale again. -/
theorem C6_theorem :
    (∀ (s : Store) (pr : TrackedPR),
      pr ∈ getPRsNeedingReview s ↔
        pr ∈ getTrackedPRs s ∧ (pr.lastReviewedAt = none ∨ pr.reviewCount = some 0)) ∧
    (∀ (thr now : Int) (s : Store) (pr : TrackedPR),
      pr ∈ getStalePRs thr now s ↔
        pr ∈ getTrackedPRs s ∧ now - pr.createdAt > thr * (60 * 60 * 1000) ∧
          (pr.lastReviewedAt = none ∨
            ∃ t, pr.lastReviewedAt = some t ∧ now - t > thr * (60 * 60 * 1000))) ∧
    (c6prNoReview ∈ getStalePRs 24 c6now [(1, c6prNoReview)] ∧
      c6prNoReview ∈ getPRsNeedingReview [(1, c6prNoReview)]) ∧
    (c6prRecent ∉ getStalePRs 24 c6now [(1, c6prRecent)] ∧
      c6prRecent ∉ getPRsNeedingReview [(1, c6prRecent)]) ∧
    c6prOld ∈ getStalePRs 24 c6now [(1, c6prOld)] := by
  refine ⟨?_, ?_, by decide, by decide, by decide⟩
  · intro s pr
    simp [getPRsNeedingReview, List.mem_filter, Option.isNone_iff_eq_none]
  · intro thr now s pr
    simp only [getStalePRs, List.mem_filter, Bool.and_eq_true, decide_eq_true_eq]
    cases h : pr.lastReviewedAt with
    | none => simp [h]
    | some t => simp [h]

def c7entry : TrackedPR :=
  { number := 4, title := "t4", url := "u4", author := "a4", createdAt := 0,
    owner := "o", repo := "r", isDraft := false, lastReviewedAt := none,
    lastUpdated := none, reviewCount := some 3, reviewers := ["x"], age := 2 }

def c7upd : PRUpdate := { title := some "t4b", reviewCount := some 2 }

/-- C7: `updatePRStatus` on a tracked number stores a merged record in
which a supplied `reviewCount` is added to the existing count while every
other supplied field replaces the stored value and absent fields are kept;
on an untracked number the store is unchanged and the drop is reported
(flag `true`, the warning path). -/
theorem C7_theorem (s : Store) (n : Nat) (u : PRUpdate) :
    (storeGet s n = none → updatePRStatus n u s = (s, true)) ∧
    (∀ pr, storeGet s n = some pr → ∃ e,
      updatePRStatus n u s = (storeSet n e s, false) ∧
      e.reviewCount = (match u.reviewCount with
        | some d => some (pr.reviewCount.getD 0 + d)
        | none => pr.reviewCount) ∧
      e.number = u.number.getD pr.number ∧
      e.title = u.title.getD pr.title ∧
      e.url = u.url.getD pr.url ∧
      e.author = u.author.getD pr.author ∧
      e.createdAt = u.createdAt.getD pr.createdAt ∧
      e.owner = u.owner.getD pr.owner ∧
      e.repo = u.repo.getD pr.repo ∧
      e.isDraft = u.isDraft.getD pr.isDraft ∧
      e.lastReviewedAt = (match u.lastReviewedAt with
        | some t => some t
        | none => pr.lastReviewedAt) ∧
      e.lastUpdated = (match u.lastUpdated with
        | some t => some t
        | none => pr.lastUpdated) ∧
      e.reviewers = u.reviewers.getD pr.reviewers ∧
      e.age = u.age.getD pr.age) := by
  constructor
  · intro h
    simp [updatePRStatus, h]
  · intro pr h
    refine ⟨applyPRUpdate pr u, ?_, rfl, rfl, rfl, rfl, rfl, rfl, rfl, rfl, rfl,
      rfl, rfl, rfl, rfl⟩
    simp [updatePRStatus, h]

/-- C7 (witness): the update semantics instantiated on an untracked
number and on a tracked entry receiving a title replacement plus a
review-count delta of 2. -/
theorem C7_witness :
    updatePRStatus 9 c7upd [] = ([], true) ∧
    (∃ e, updatePRStatus 4 c7upd [(4, c7entry)] = (storeSet 4 e [(4, c7entry)], false) ∧
      e.reviewCount = (match c7upd.reviewCount with
        | some d => some (c7entry.reviewCount.getD 0 + d)
        | none => c7entry.reviewCount) ∧
      e.number = c7upd.number.getD c7entry.number ∧
      e.title = c7upd.title.getD c7entry.title ∧
      e.url = c7upd.url.getD c7entry.url ∧
      e.author = c7upd.author.getD c7entry.author ∧
      e.createdAt = c7upd.createdAt.getD c7entry.createdAt ∧
      e.owner = c7upd.owner.getD c7entry.owner ∧
      e.repo = c7upd.repo.getD c7entry.repo ∧
      e.isDraft = c7upd.isDraft.getD c7entry.isDraft ∧
      e.lastReviewedAt = (match c7upd.lastReviewedAt with
        | some t => some t
        | none => c7entry.lastReviewedAt) ∧
      e.lastUpdated = (match c7upd.lastUpdated with
        | some t => some t
        | none => c7entry.lastUpdated) ∧
      e.reviewers = c7upd.reviewers.getD c7entry.reviewers ∧
      e.age = c7upd.age.getD c7entry.age) :=
  ⟨(C7_theorem [] 9 c7upd).1 rfl, (C7_theorem [(4, c7entry)] 4 c7upd).2 c7entry rfl⟩

def c8entry : TrackedPR :=
  { number := 3, title := "t3", url := "u3", author := "a3", createdAt := 0,
    owner := "o", repo := "r", isDraft := false, lastReviewedAt := none,
    lastUpdated := none, reviewCount := some 1, reviewers := [], age := 0 }

/-- C8 (counterexample): `updatePRStatus` applies a negative count delta
without clamping, so a call supplying a delta of -1 to an entry with
count 1 stores count 0, strictly below the pre-call value — the claimed
monotonicity fails for arbitrary count deltas. -/
theorem C8_counterexample :
    c8entry.reviewCount = some 1 ∧
    ((storeGet (updatePRStatus 3 { reviewCount := some (-1) } [(3, c8entry)]).1 3).bind
      TrackedPR.reviewCount) = some 0 ∧
    ¬ ((1 : Int) ≤ 0) := by
  decide

/-- C8 (amended): across `updateStatus` calls supplying a non-negative
count delta (the ingestion path only ever supplies 1), the stored
`reviewCount` after the call is at least its value before the call. -/
theorem C8_theorem (s : Store) (n : Nat) (u : PRUpdate) (pr : TrackedPR) (d : Int)
    (hget : storeGet s n = some pr) (hd : u.reviewCount = some d) (hnn : 0 ≤ d) :
    pr.reviewCount.getD 0 ≤
      ((storeGet (updatePRStatus n u s).1 n).bind TrackedPR.reviewCount).getD 0 := by
  simp [updatePRStatus, hget, applyPRUpdate, storeGet_storeSet_self, hd]
  omega

/-- C8 (witness): the amended monotonicity instantiated at a tracked
entry with count 1 receiving a delta of 2. -/
theorem C8_witness :
    c8entry.reviewCount.getD 0 ≤
      ((storeGet (updatePRStatus 3 { reviewCount := some 2 } [(3, c8entry)]).1 3).bind
        TrackedPR.reviewCount).getD 0 :=
  C8_theorem [(3, c8entry)] 3 { reviewCount := some 2 } c8entry 2 rfl rfl (by decide)

theorem handleReview_submitted (pr : WebhookPRPayload) (rv : ReviewPayload) (s : Store) :
    handlePullRequestReviewEvent "submitted" pr rv s =
      (updatePRStatus pr.number
        { lastReviewedAt := some rv.submitted_at, reviewCount := some 1 } s).1 := rfl

/-- C10: review-event ingestion never touches the `reviewers` field of
any store entry (the field is populated exclusively by reconciliation);
a submitted review on an untracked PR leaves the store unchanged, and on
a tracked PR it rewrites exactly the target entry, changing only
`lastReviewedAt` (to the submission timestamp) and `reviewCount`
(incremented by 1). -/
theorem C10_theorem (action : String) (pr : WebhookPRPayload) (rv : ReviewPayload)
    (s : Store) :
    (∀ k, (storeGet (handlePullRequestReviewEvent action pr rv s) k).map
        TrackedPR.reviewers = (storeGet s k).map TrackedPR.reviewers) ∧
    (storeGet s pr.number = none → handlePullRequestReviewEvent action pr rv s = s) ∧
    (action = "submitted" → ∀ e, storeGet s pr.number = some e →
      handlePullRequestReviewEvent action pr rv s =
        storeSet pr.number
          { e with
            lastReviewedAt := some rv.submitted_at,
            reviewCount := some (e.reviewCount.getD 0 + 1) } s) := by
  by_cases ha : action = "submitted"
  · subst ha
    refine ⟨?_, ?_, ?_⟩
    · intro k
      rw [handleReview_submitted]
      cases hget : storeGet s pr.number with
      | none => simp [updatePRStatus, hget]
      | some e =>
        simp only [updatePRStatus, hget]
        by_cases hk : k = pr.number
        · rw [hk, storeGet_storeSet_self, hget]
          rfl
        · rw [storeGet_storeSet_ne _ _ _ _ hk]
    · intro hget
      rw [handleReview_submitted]
      simp [updatePRStatus, hget]
    · intro _ e hget
      rw [handleReview_submitted]
      simp only [updatePRStatus, hget]
      rfl
  · refine ⟨fun k => ?_, fun _ => ?_, fun hs => absurd hs ha⟩
    · simp [handlePullRequestReviewEvent, ha]
    · simp [handlePullRequestReviewEvent, ha]

def c10entry : TrackedPR :=
  { number := 6, title := "t6", url := "u6", author := "a6", createdAt := 0,
    owner := "o", repo := "r", isDraft := false, lastReviewedAt := none,
    lastUpdated := none, reviewCount := some 0, reviewers := ["zed"], age := 1 }

def c10pr : WebhookPRPayload :=
  { number := 6, title := "t6", html_url := "u6", user_login := "a6",
    created_at := 0, state := "open", draft := false }

def c10rv : ReviewPayload :=
  { state := "approved", user_login := "zed", submitted_at := 99 }

/-- C10 (witness): the frame property instantiated at a submitted review
on a tracked PR with one prior reviewer recorded. -/
theorem C10_witness :
    handlePullRequestReviewEvent "submitted" c10pr c10rv [(6, c10entry)] =
      storeSet c10pr.number
        { c10entry with
          lastReviewedAt := some c10rv.submitted_at,
          reviewCount := some (c10entry.reviewCount.getD 0 + 1) } [(6, c10entry)] :=
  (C10_theorem ("submitted") c10pr c10rv [(6, c10entry)]).2.2 rfl c10entry rfl

theorem formatTimeDifference_m (ms : ℚ) (h : ms < 3600000) :
    formatTimeDifference ms = toString ⌊ms / (1000 * 60)⌋ ++ "m" := by
  have h1 : ms / (1000 * 60 * 60) < 1 := by
    rw [div_lt_one (by norm_num)]
    linarith
  rw [formatTimeDifference, if_pos h1]

theorem formatTimeDifference_h (ms : ℚ) (hge : 3600000 ≤ ms) (hlt : ms < 86400000) :
    formatTimeDifference ms = toString ⌊ms / (1000 * 60 * 60)⌋ ++ "h" := by
  have h1 : ¬(ms / (1000 * 60 * 60) < 1) := by
    rw [not_lt, le_div_iff₀ (by norm_num)]
    linarith
  have h2 : ms / (1000 * 60 * 60) < 24 := by
    rw [div_lt_iff₀ (by norm_num)]
    linarith
  rw [formatTimeDifference, if_neg h1, if_pos h2]

theorem formatTimeDifference_d (ms : ℚ) (hge : 86400000 ≤ ms) :
    formatTimeDifference ms =
      if ⌊ms / (1000 * 60 * 60) / 24⌋ = 1 then "1 day"
      else toString ⌊ms / (1000 * 60 * 60) / 24⌋ ++ " days" := by
  have h1 : ¬(ms / (1000 * 60 * 60) < 1) := by
    rw [not_lt, le_div_iff₀ (by norm_num)]
    linarith
  have h2 : ¬(ms / (1000 * 60 * 60) < 24) := by
    rw [not_lt, le_div_iff₀ (by norm_num)]
    linarith
  rw [formatTimeDifference, if_neg h1, if_neg h2]

/-- C9 (counterexample): the metrics formatter does not follow the
`formatAge` tiering: a mean below one hour renders as floor-minutes
("30m"), not "just opened", and a mean of 48 hours renders as "2 days",
not "2d". -/
theorem C9_counterexample :
    averageReviewTimeString [(0, some [⟨some "a", 1800000⟩])] = "30m" ∧
    "30m" ≠ "just opened" ∧
    averageMergeTimeString [(0, some 172800000)] = "2 days" ∧
    "2 days" ≠ "2d" := by
  refine ⟨?_, by decide, ?_, by decide⟩
  · have h : averageReviewTimeString [(0, some [⟨some "a", 1800000⟩])] =
        formatTimeDifference ((0 + ((1800000 : ℚ) - 0)) / (1 : ℚ)) := by
      simp [averageReviewTimeString]
    rw [h]
    norm_num
    rw [formatTimeDifference_m 1800000 (by norm_num)]
    norm_num
    decide
  · have h : averageMergeTimeString [(0, some 172800000)] =
        formatTimeDifference ((0 + ((172800000 : ℚ) - 0)) / (1 : ℚ)) := by
      simp [averageMergeTimeString]
    rw [h]
    norm_num
    rw [formatTimeDifference_d 172800000 (by norm_num)]
    norm_num
    decide

/-- C9 (amended): the metrics strings share only the tier boundaries of
`formatAge` (1h and 24h, with integer floors): below 1h the mean formats
as floor-minutes with suffix "m", from 1h to 24h as floor-hours with
suffix "h", and from 24h on as "1 day" or floor-days with suffix " days";
the mean of review latencies {1h, 3h, 5h} over three merged PRs formats
to "3h". -/
theorem C9_theorem :
    (∀ ms : ℚ,
      (ms < 3600000 → formatTimeDifference ms = toString ⌊ms / (1000 * 60)⌋ ++ "m") ∧
      (3600000 ≤ ms → ms < 86400000 →
        formatTimeDifference ms = toString ⌊ms / (1000 * 60 * 60)⌋ ++ "h") ∧
      (86400000 ≤ ms →
        formatTimeDifference ms =
          if ⌊ms / (1000 * 60 * 60) / 24⌋ = 1 then "1 day"
          else toString ⌊ms / (1000 * 60 * 60) / 24⌋ ++ " days")) ∧
    averageReviewTimeString
      [(0, some [⟨some "a", 3600000⟩]), (0, some [⟨some "b", 10800000⟩]),
        (0, some [⟨some "c", 18000000⟩])] = "3h" := by
  constructor
  · intro ms
    exact ⟨formatTimeDifference_m ms, formatTimeDifference_h ms, formatTimeDifference_d ms⟩
  · have h : averageReviewTimeString
        [(0, some [⟨some "a", 3600000⟩]), (0, some [⟨some "b", 10800000⟩]),
          (0, some [⟨some "c", 18000000⟩])] =
        formatTimeDifference
          ((0 + ((3600000 : ℚ) - 0) + ((10800000 : ℚ) - 0) + ((18000000 : ℚ) - 0)) /
            (3 : ℚ)) := by
      simp [averageReviewTimeString]
    rw [h]
    norm_num
    rw [formatTimeDifference_h 10800000 (by norm_num) (by norm_num)]
    norm_num
    decide

/-- C9 (witness): the hour tier of the amended statement instantiated at
a two-hour mean. -/
theorem C9_witness :
    formatTimeDifference 7200000 =
      toString ⌊(7200000 : ℚ) / (1000 * 60 * 60)⌋ ++ "h" :=
  (C9_theorem.1 7200000).2.1 (by norm_num) (by norm_num)
